import Mathlib

/-!
# Verification of the Deliberatorium monitoring dashboard (src/app.py)

A shallow embedding of the fetch/cache/derive logic of the dashboard.

Modelling conventions:
* JSON values (the payloads of `r.json()`) are the inductive `JVal`.
  JSON numbers and Python float64 samples are modelled as rationals `ℚ`;
  every arithmetic fact proved here ((1 - a/t) * 100, value * 100) is exact
  at the inputs considered, so the rational model agrees with float64 there.
* A UTC instant produced by `datetime.fromtimestamp(int(ts), tz=timezone.utc)`
  is identified with its integer epoch second (the conversion is injective).
* Python exceptions are the inductive `PyExc`; a Python function that can
  raise is embedded as `Except PyExc _`, and a `try/except Exception` block
  as a match on that `Except`.
* Environment variables are strings, with an absent variable equal to `""`
  (the code applies `os.getenv(_, "")`).
-/

/-- A JSON value, as returned by `requests.Response.json()`. -/
inductive JVal where
  | null : JVal
  | bool : Bool → JVal
  | num : ℚ → JVal
  | str : String → JVal
  | arr : List JVal → JVal
  | obj : List (String × JVal) → JVal

/-- The Python exceptions that the embedded code can raise. -/
inductive PyExc where
  | attributeError : PyExc
  | typeError : PyExc
  | valueError : PyExc
  | keyError : PyExc
  | indexError : PyExc
  | httpError : PyExc
  deriving DecidableEq, Repr

/-- Equality of embedded Python outcomes is decidable, so that concrete
runs of the model can be checked by evaluation. -/
instance exceptDecEq {ε α : Type} [DecidableEq ε] [DecidableEq α] :
    DecidableEq (Except ε α)
  | .ok x, .ok y => decidable_of_iff (x = y) (by simp)
  | .ok _, .error _ => .isFalse (by simp)
  | .error _, .ok _ => .isFalse (by simp)
  | .error e, .error e' => decidable_of_iff (e = e') (by simp)

/-- First-match association lookup, the semantics of a Python `dict`
built from JSON (later duplicate keys are not produced by `r.json()`;
for our list model the first binding wins). -/
def alookup {α β : Type} [DecidableEq α] : List (α × β) → α → Option β
  | [], _ => none
  | (k, v) :: rest, a => if k = a then some v else alookup rest a

/-- Python truthiness of a JSON value (`if not result: ...`). -/
def pyTruthy : JVal → Bool
  | .null => false
  | .bool b => b
  | .num q => decide (q ≠ 0)
  | .str s => decide (s ≠ "")
  | .arr [] => false
  | .arr (_ :: _) => true
  | .obj [] => false
  | .obj (_ :: _) => true

/-- `v.get(k, dflt)`: defined when `v` is a dict, otherwise Python raises
`AttributeError` (no `.get` on non-dicts). -/
def dictGet (v : JVal) (k : String) (dflt : JVal) : Except PyExc JVal :=
  match v with
  | .obj kvs => .ok ((alookup kvs k).getD dflt)
  | _ => .error .attributeError

/-- `v[0]` on a (truthy, hence nonempty) JSON value. Lists give their head;
strings give their first character; dicts raise `KeyError` (JSON keys are
strings, so the key `0` is absent); other values are not subscriptable. -/
def pySubscript0 : JVal → Except PyExc JVal
  | .arr (x :: _) => .ok x
  | .arr [] => .error .indexError
  | .str s =>
      match s.data with
      | c :: _ => .ok (.str (String.mk [c]))
      | [] => .error .indexError
  | .obj _ => .error .keyError
  | _ => .error .typeError

/-- `for x in v`: lists iterate their elements, dicts their keys, strings
their characters; other JSON values are not iterable (`TypeError`). -/
def pyIter : JVal → Except PyExc (List JVal)
  | .arr xs => .ok xs
  | .obj kvs => .ok (kvs.map (fun kv => .str kv.1))
  | .str s => .ok (s.data.map (fun c => .str (String.mk [c])))
  | _ => .error .typeError

/-- `ts, val = item`: tuple-unpacking of one element of `values` into two
 parts. Two-element lists unpack; two-character strings unpack into their
characters; two-key dicts unpack into their keys; anything else raises. -/
def pyUnpack2 : JVal → Except PyExc (JVal × JVal)
  | .arr [a, b] => .ok (a, b)
  | .arr _ => .error .valueError
  | .str s =>
      match s.data with
      | [c₁, c₂] => .ok (.str (String.mk [c₁]), .str (String.mk [c₂]))
      | _ => .error .valueError
  | .obj [kv₁, kv₂] => .ok (.str kv₁.1, .str kv₂.1)
  | .obj _ => .error .valueError
  | _ => .error .typeError

/-- The numeric value of a list of decimal digit characters. -/
def natOfDigits (cs : List Char) : Nat :=
  cs.foldl (fun a c => a * 10 + (c.toNat - 48)) 0

/-- Split a character list at every `'.'` (the groups between dots). -/
def splitDot : List Char → List (List Char)
  | [] => [[]]
  | c :: rest =>
      if c = '.' then [] :: splitDot rest
      else
        match splitDot rest with
        | [] => [[c]]
        | g :: gs => (c :: g) :: gs

/-- An unsigned decimal literal: digits with at most one decimal point and
at least one digit (the grammar accepted by Python `float` up to exponents
and specials, which the metrics API does not emit). -/
def parseUnsignedRat (cs : List Char) : Option ℚ :=
  match splitDot cs with
  | [a] =>
      if a ≠ [] ∧ a.all Char.isDigit then some (natOfDigits a) else none
  | [a, b] =>
      if (a ≠ [] ∨ b ≠ []) ∧ a.all Char.isDigit ∧ b.all Char.isDigit then
        some ((natOfDigits a : ℚ) + (natOfDigits b : ℚ) / 10 ^ b.length)
      else none
  | _ => none

/-- ASCII whitespace, the characters Python `str.strip()` removes from
numeric literals. -/
def isPyWhitespace (c : Char) : Bool :=
  c = ' ' ∨ c = '\t' ∨ c = '\n' ∨ c = '\r' ∨ c = '\x0b' ∨ c = '\x0c'

/-- Strip leading and trailing whitespace from a character list. -/
def stripChars (cs : List Char) : List Char :=
  (((cs.dropWhile isPyWhitespace).reverse).dropWhile isPyWhitespace).reverse

/-- Python `float(s)` on a string: strip whitespace, optional sign, then a
decimal literal. -/
def strToFloat (s : String) : Option ℚ :=
  match stripChars s.data with
  | '+' :: rest => parseUnsignedRat rest
  | '-' :: rest => (parseUnsignedRat rest).map Neg.neg
  | cs => parseUnsignedRat cs

/-- Python `int(s)` on a string: strip whitespace, optional sign, digits
only (a decimal point raises `ValueError`). -/
def strToInt (s : String) : Option Int :=
  let core : List Char → Option Int := fun cs =>
    if cs ≠ [] ∧ cs.all Char.isDigit then some (natOfDigits cs) else none
  match stripChars s.data with
  | '+' :: rest => core rest
  | '-' :: rest => (core rest).map Neg.neg
  | cs => core cs

/-- Truncation toward zero, the behaviour of Python `int()` on a float. -/
def ratTrunc (q : ℚ) : Int :=
  if 0 ≤ q then ⌊q⌋ else ⌈q⌉

/-- Python `int(v)` on a JSON value. -/
def pyInt : JVal → Except PyExc Int
  | .bool b => .ok (if b then 1 else 0)
  | .num q => .ok (ratTrunc q)
  | .str s =>
      match strToInt s with
      | some n => .ok n
      | none => .error .valueError
  | _ => .error .typeError

/-- Python `float(v)` on a JSON value. -/
def pyFloat : JVal → Except PyExc ℚ
  | .bool b => .ok (if b then 1 else 0)
  | .num q => .ok q
  | .str s =>
      match strToFloat s with
      | some q => .ok q
      | none => .error .valueError
  | _ => .error .typeError

/-- One point of a raw time series: UTC timestamp (epoch seconds) and
float64 value. -/
abbrev Series := List (Int × ℚ)

/-- One iteration of the row loop of `_parse_matrix`:
`rows.append((datetime.fromtimestamp(int(ts), tz=timezone.utc), float(val)))`. -/
def parseRow (item : JVal) : Except PyExc (Int × ℚ) := do
  let (tsv, valv) ← pyUnpack2 item
  let t ← pyInt tsv
  let v ← pyFloat valv
  pure (t, v)

/-- The row loop of `_parse_matrix`: `rows` is built left to right and the
first failing row aborts the whole loop with its exception. -/
def parseRows : List JVal → Except PyExc Series
  | [] => .ok []
  | item :: rest => do
      let r ← parseRow item
      let rs ← parseRows rest
      pure (r :: rs)

/-- The body of `_parse_matrix` without its `try/except` wrapper. -/
def parseMatrixCore (payload : JVal) : Except PyExc Series := do
  let data ← dictGet payload "data" (.obj [])
  let result ← dictGet data "result" (.arr [])
  if pyTruthy result then do
    let r₀ ← pySubscript0 result
    let valuesJson ← dictGet r₀ "values" (.arr [])
    let items ← pyIter valuesJson
    parseRows items
  else
    pure []

/-- `_parse_matrix(payload)`: the body above with `except Exception:`
returning the empty series. -/
def parse_matrix (payload : JVal) : Series :=
  match parseMatrixCore payload with
  | .ok s => s
  | .error _ => []

/-- The outcome of one outbound HTTP request to the cloud metrics API:
a 2xx response with a JSON body, or a failure (network error, timeout, or
a non-2xx status that `raise_for_status()` turns into an exception). -/
inductive HttpResult where
  | ok : JVal → HttpResult
  | fail : HttpResult

/-- `do_metric(metric, droplet_id, hours)`: short-circuits to an empty
series when the cloud token or the host id is empty; otherwise performs
one network request (the second component counts the network calls) and
either parses the body or lets the HTTP failure propagate as an exception.
The network is an explicit parameter `net`. -/
def do_metric (doToken dropletId : String) (net : HttpResult) :
    Except PyExc Series × Nat :=
  if doToken = "" ∨ dropletId = "" then (.ok [], 0)
  else
    match net with
    | .ok payload => (.ok (parse_matrix payload), 1)
    | .fail => (.error .httpError, 1)

/-- The rows of `right` whose timestamp equals `t`, each joined with the
left value `a` and kept in `right`'s order. -/
def matchRows (t : Int) (a : ℚ) : Series → List (Int × ℚ × ℚ)
  | [] => []
  | (t', b) :: rest =>
      if t' = t then (t, a, b) :: matchRows t a rest else matchRows t a rest

/-- `pd.merge(avail, total, on="ts")`: an inner join that preserves the
order of the left frame's keys, pairing each left row with every matching
right row in right order. -/
def pdMergeInner : Series → Series → List (Int × ℚ × ℚ)
  | [], _ => []
  | (t, a) :: rest, right => matchRows t a right ++ pdMergeInner rest right

/-- The series combinator inside `mem_used_pct`: empty if either input is
empty, otherwise the inner join on `ts` with
`value = (1 - available/total) * 100` per joined row. -/
def mem_used_pct_series (avail total : Series) : Series :=
  if avail = [] ∨ total = [] then []
  else (pdMergeInner avail total).map (fun r => (r.1, (1 - r.2.1 / r.2.2) * 100))

/-- `mem_used_pct(droplet_id, hours)`: fetches the `memory_available` and
`memory_total` series through `do_metric` (each over its own network
outcome) and combines them; exceptions from either fetch propagate. -/
def mem_used_pct (doToken dropletId : String) (netAvail netTotal : HttpResult) :
    Except PyExc Series := do
  let avail ← (do_metric doToken dropletId netAvail).1
  let total ← (do_metric doToken dropletId netTotal).1
  pure (mem_used_pct_series avail total)

/-- `series.max()` over the `value` column of a nonempty frame (`none` for
the empty frame, a case the code guards against with `cpu.empty`). -/
def seriesMax : List ℚ → Option ℚ
  | [] => none
  | v :: rest =>
      match seriesMax rest with
      | none => some v
      | some m => some (max v m)

/-- The CPU display normalization applied to the `value` column of a
nonempty fetched frame: if the window maximum is ≤ 1.5 every value is
multiplied by 100, otherwise the column is unchanged. -/
def cpu_plot_values (vs : List ℚ) : List ℚ :=
  match seriesMax vs with
  | none => vs
  | some m => if m ≤ 3 / 2 then vs.map (fun v => v * 100) else vs

/-- The value of a `status` field as delivered by the monitoring agent:
a JSON string or `null` (unset). -/
inductive StatusVal where
  | pynone : StatusVal
  | pystr : String → StatusVal
  deriving DecidableEq

/-- One entry of the agent's `components` mapping: `null` or a JSON object
whose fields (status, lastCheckAt, lastOkAt, lastError) are strings or
`null`. -/
inductive PyComp where
  | pynull : PyComp
  | pydict : List (String × StatusVal) → PyComp

/-- One configured service descriptor; only the `key` field takes part in
status aggregation. -/
structure Service where
  key : String

/-- `(components.get(key, {}) or {}).get("status", "unknown")`: a missing
key, a `null` component and an empty component dict all collapse to `{}`
(the `or {}` catches the falsy values), whose `status` lookup yields the
default `"unknown"`. -/
def compStatus (components : List (String × PyComp)) (key : String) : StatusVal :=
  match alookup components key with
  | some (.pydict ((f₀ :: fs) : List (String × StatusVal))) =>
      (alookup (f₀ :: fs) "status").getD (.pystr "unknown")
  | _ => .pystr "unknown"

/-- The `statuses` list: one status per configured service, in order. -/
def statusesOf (services : List Service) (components : List (String × PyComp)) :
    List StatusVal :=
  services.map (fun svc => compStatus components svc.key)

/-- `(s or "")`: `None` and the empty string are falsy and become `""`. -/
def pyOrEmpty : StatusVal → String
  | .pynone => ""
  | .pystr s => s

/-- ASCII lower-casing of one character, the effect of Python
`str.lower()` on the status strings considered. -/
def lowerChar (c : Char) : Char :=
  if 'A' ≤ c ∧ c ≤ 'Z' then Char.ofNat (c.toNat + 32) else c

/-- Python `s.lower()`. -/
def lowerString (s : String) : String :=
  String.mk (s.data.map lowerChar)

/-- `(s or "").lower() == "down"`. -/
def isDown (s : StatusVal) : Bool :=
  lowerString (pyOrEmpty s) = "down"

/-- `(s or "").lower() == "up"`. -/
def isUp (s : StatusVal) : Bool :=
  lowerString (pyOrEmpty s) = "up"

/-- `down_count`. -/
def down_count (statuses : List StatusVal) : Nat :=
  statuses.countP isDown

/-- `up_count`. -/
def up_count (statuses : List StatusVal) : Nat :=
  statuses.countP isUp

/-- `unk_count = len(statuses) - down_count - up_count`. -/
def unk_count (statuses : List StatusVal) : Nat :=
  statuses.length - down_count statuses - up_count statuses

/-- `overall = "OK" if down_count == 0 and unk_count == 0 else
("DEGRADED" if down_count == 0 else "DOWN")`. -/
def overall (statuses : List StatusVal) : String :=
  if down_count statuses = 0 ∧ unk_count statuses = 0 then "OK"
  else if down_count statuses = 0 then "DEGRADED" else "DOWN"

/-- Modelled from the spec: the `st.cache_data` memoization layer is
library code not present under `src/`; per §4.1/§9 of the spec an entry
maps an argument tuple to the computed value and its fetch time, and is
valid while `now - fetchedAt < ttl`. -/
structure CacheState (α β : Type) where
  entries : List (α × β × Nat)

/-- Modelled from the spec: one call through the TTL cache. A valid entry
is served without calling `f`; otherwise `f` runs once and the result is
stored with the current time. The third component counts network calls
made by this invocation (0 or 1). -/
def cachedCall {α β : Type} [DecidableEq α] (ttl : Nat) (f : Nat → α → β)
    (c : CacheState α β) (now : Nat) (a : α) : β × CacheState α β × Nat :=
  match alookup c.entries a with
  | some (v, fetchedAt) =>
      if now - fetchedAt < ttl then (v, c, 0)
      else
        let v' := f now a
        (v', ⟨(a, v', now) :: c.entries⟩, 1)
  | none =>
      let v := f now a
      (v, ⟨(a, v, now) :: c.entries⟩, 1)

/-- The TTL of `@st.cache_data(ttl=10)` on `ops_get` (agent status/log
reads). -/
def OPS_GET_TTL : Nat := 10

/-- The TTL of `@st.cache_data(ttl=30)` on `do_metric` (metric reads). -/
def DO_METRIC_TTL : Nat := 30

/-! ## Helper lemmas -/

theorem parseRows_ok_length :
    ∀ {items : List JVal} {rows : Series}, parseRows items = .ok rows →
      rows.length = items.length := by
  intro items
  induction items with
  | nil => intro rows h; simp [parseRows] at h; simp [← h]
  | cons item rest ih =>
      intro rows h
      simp only [parseRows, Bind.bind, Except.bind] at h
      cases hr : parseRow item with
      | error e => rw [hr] at h; exact absurd h (by simp)
      | ok r =>
          rw [hr] at h
          cases hrs : parseRows rest with
          | error e => rw [hrs] at h; exact absurd h (by simp)
          | ok rs =>
              rw [hrs] at h
              simp only [pure, Except.pure, Except.ok.injEq] at h
              subst h
              simp [ih hrs]

theorem parseRows_ok_get :
    ∀ {items : List JVal} {rows : Series}, parseRows items = .ok rows →
      ∀ i (h : i < items.length) (h' : i < rows.length),
        parseRow (items.get ⟨i, h⟩) = .ok (rows.get ⟨i, h'⟩) := by
  intro items
  induction items with
  | nil => intro rows _ i h; exact absurd h (by simp)
  | cons item rest ih =>
      intro rows hpr i h h'
      simp only [parseRows, Bind.bind, Except.bind] at hpr
      cases hr : parseRow item with
      | error e => rw [hr] at hpr; exact absurd hpr (by simp)
      | ok r =>
          rw [hr] at hpr
          cases hrs : parseRows rest with
          | error e => rw [hrs] at hpr; exact absurd hpr (by simp)
          | ok rs =>
              rw [hrs] at hpr
              simp only [pure, Except.pure, Except.ok.injEq] at hpr
              subst hpr
              cases i with
              | zero => simpa using hr
              | succ j =>
                  have hj : j < rest.length := by simpa using h
                  have hj' : j < rs.length := by simpa using h'
                  simpa using ih hrs j hj hj'

/-! ## Claim theorems: matrix parsing -/

/-- Claim C4: for every well-formed matrix payload whose first result
series holds the pair list `items`, `_parse_matrix` returns exactly one
sample per pair, in input order, each obtained by `parseRow` (epoch seconds
via `int`, value via `float`), using only the first result series even when
further series (`rest`) are present. -/
theorem parse_matrix_first_series
    (pkvs dkvs rkvs : List (String × JVal)) (rest items : List JVal) (rows : Series)
    (hdata : alookup pkvs "data" = some (.obj dkvs))
    (hresult : alookup dkvs "result" = some (.arr (JVal.obj rkvs :: rest)))
    (hvalues : alookup rkvs "values" = some (.arr items))
    (hrows : parseRows items = .ok rows) :
    parse_matrix (.obj pkvs) = rows ∧
      rows.length = items.length ∧
      ∀ i (h : i < items.length) (h' : i < rows.length),
        parseRow (items.get ⟨i, h⟩) = .ok (rows.get ⟨i, h'⟩) := by
  have hcore : parseMatrixCore (.obj pkvs) = .ok rows := by
    simp only [parseMatrixCore, dictGet, Bind.bind, Except.bind, hdata, hresult, hvalues,
      Option.getD_some, pyTruthy, pySubscript0, pyIter, hrows, if_true]
  refine ⟨?_, parseRows_ok_length hrows, parseRows_ok_get hrows⟩
  simp [parse_matrix, hcore]

/-- Witness for C4: a two-pair payload with a second (ignored) result
series parses to its two samples, `"0.5"` converted to the float `1/2`. -/
theorem parse_matrix_first_series_witness :
    parse_matrix (.obj [("data", .obj [("result", .arr [.obj [("values",
        .arr [.arr [.num 100, .str "0.5"], .arr [.num 160, .num 2]])],
        .obj [("values", .arr [.arr [.num 999, .num 999]])]])])]) =
      [(100, 1 / 2), (160, 2)] := by
  have hrows : parseRows [.arr [.num 100, .str "0.5"], .arr [.num 160, .num 2]] =
      .ok [(100, 1 / 2), (160, 2)] := by
    have h05 : stripChars "0.5".data = ['0', '.', '5'] := by decide
    simp [parseRows, parseRow, pyUnpack2, pyInt, pyFloat, ratTrunc, strToFloat, h05,
      parseUnsignedRat, splitDot, natOfDigits, Bind.bind, Except.bind, pure, Except.pure]
    norm_num
  exact (parse_matrix_first_series
    [("data", .obj [("result", .arr [.obj [("values",
        .arr [.arr [.num 100, .str "0.5"], .arr [.num 160, .num 2]])],
        .obj [("values", .arr [.arr [.num 999, .num 999]])]])])]
    [("result", .arr [.obj [("values",
        .arr [.arr [.num 100, .str "0.5"], .arr [.num 160, .num 2]])],
        .obj [("values", .arr [.arr [.num 999, .num 999]])]])]
    [("values", .arr [.arr [.num 100, .str "0.5"], .arr [.num 160, .num 2]])]
    [.obj [("values", .arr [.arr [.num 999, .num 999]])]]
    [.arr [.num 100, .str "0.5"], .arr [.num 160, .num 2]]
    [(100, 1 / 2), (160, 2)]
    rfl rfl rfl hrows).1

/-- Claim C5: `_parse_matrix` never lets an exception escape: whenever its
body raises, the `except` clause returns the empty series; in particular
`{}`, a missing or empty `result` list, a malformed shape and a
non-numeric value all give the empty series. -/
theorem parse_matrix_never_raises :
    (∀ payload e, parseMatrixCore payload = .error e → parse_matrix payload = []) ∧
    parse_matrix (.obj []) = [] ∧
    parse_matrix (.obj [("data", .obj [("result", .arr [])])]) = [] ∧
    parse_matrix .null = [] ∧
    parse_matrix (.num 5) = [] ∧
    parse_matrix (.obj [("data", .obj [("result", .str "oops")])]) = [] ∧
    parse_matrix (.obj [("data", .obj [("result",
      .arr [.obj [("values", .arr [.arr [.num 1, .str "abc"]])]])])]) = [] := by
  refine ⟨?_, rfl, rfl, rfl, rfl, rfl, ?_⟩
  · intro payload e h
    simp [parse_matrix, h]
  · have : strToFloat "abc" = none := by decide
    simp [parse_matrix, parseMatrixCore, dictGet, alookup, pyTruthy, pySubscript0, pyIter,
      parseRows, parseRow, pyUnpack2, pyInt, pyFloat, this, Bind.bind, Except.bind, pure,
      Except.pure]

/-- Witness for C5: the first conjunct applied to a non-dict payload, whose
`.get` raises `AttributeError` inside the guarded body. -/
theorem parse_matrix_never_raises_witness :
    parse_matrix (.str "not json object") = [] :=
  parse_matrix_never_raises.1 (.str "not json object") .attributeError rfl

/-! ## Claim theorems: metric fetch and failure propagation -/

/-- Counterexample to claim C1 as stated: with credentials and a host id
present, a failed cloud metric fetch (network error or non-2xx) is not
received by the caller as an empty series — `do_metric` raises, and the
exception propagates out of `mem_used_pct` (and out of the CPU chart path,
which calls `do_metric` directly), halting the render. -/
theorem metric_fetch_failure_is_fatal :
    (do_metric "token" "42" .fail).1 = .error .httpError ∧
    mem_used_pct "token" "42" .fail .fail = .error .httpError ∧
    mem_used_pct "token" "42" .fail .fail ≠ .ok [] := by
  refine ⟨rfl, rfl, fun h => ?_⟩
  exact Except.noConfusion ((rfl : mem_used_pct "token" "42" .fail .fail =
    Except.error PyExc.httpError).symm.trans h)

/-- Claim C1 as amended: a metric fetch with a missing token or host id
degrades to an empty series without touching the network, and a 2xx
response always parses to a series (never raises); but a failed request
raises `httpError` out of `do_metric`, and the exception propagates
through `mem_used_pct` uncaught. -/
theorem do_metric_failure_behavior
    (tok did : String) (p : JVal) (htok : tok ≠ "") (hdid : did ≠ "") :
    (∀ d net, do_metric "" d net = (.ok [], 0)) ∧
    (∀ t net, do_metric t "" net = (.ok [], 0)) ∧
    (do_metric tok did (.ok p)).1 = .ok (parse_matrix p) ∧
    (do_metric tok did .fail).1 = .error .httpError ∧
    mem_used_pct tok did .fail .fail = .error .httpError := by
  refine ⟨?_, ?_, ?_, ?_, ?_⟩
  · intro d net; simp [do_metric]
  · intro t net; simp [do_metric]
  · simp [do_metric, htok, hdid]
  · simp [do_metric, htok, hdid]
  · simp [mem_used_pct, do_metric, htok, hdid, Bind.bind, Except.bind]

/-- Witness for the amended C1 at concrete inputs. -/
theorem do_metric_failure_behavior_witness :
    do_metric "" "42" HttpResult.fail = (.ok [], 0) ∧
    (do_metric "token" "42" (.ok (.obj []))).1 = .ok [] ∧
    mem_used_pct "token" "42" HttpResult.fail HttpResult.fail =
      .error .httpError := by
  have h := do_metric_failure_behavior "token" "42" (.obj [])
    (by decide) (by decide)
  exact ⟨h.1 "42" .fail, h.2.2.1, h.2.2.2.2⟩

/-- Claim C8: when the cloud token is absent or the host id is
absent/empty, `do_metric` returns an empty series at once and performs no
network request (the call counter stays 0). -/
theorem do_metric_short_circuit (tok did : String) (net : HttpResult)
    (h : tok = "" ∨ did = "") :
    do_metric tok did net = (.ok [], 0) := by
  unfold do_metric
  rw [if_pos h]

/-- Witness for C8: an empty host id with a configured token. -/
theorem do_metric_short_circuit_witness :
    do_metric "token" "" HttpResult.fail = (.ok [], 0) :=
  do_metric_short_circuit "token" "" .fail (Or.inr rfl)

/-! ## Claim theorems: status aggregation -/

theorem countP_disjoint_le {α : Type} (p q : α → Bool) (l : List α)
    (h : ∀ a, ¬(p a = true ∧ q a = true)) :
    l.countP p + l.countP q ≤ l.length := by
  induction l with
  | nil => simp
  | cons x xs ih =>
      rw [List.countP_cons, List.countP_cons, List.length_cons]
      have hx := h x
      cases hp : p x <;> cases hq : q x <;> simp [hp, hq] at hx ⊢ <;> omega

theorem isDown_isUp_disjoint : ∀ s, ¬(isDown s = true ∧ isUp s = true) := by
  intro s hs
  obtain ⟨h1, h2⟩ := hs
  simp [isDown, isUp] at h1 h2
  rw [h1] at h2
  exact absurd h2 (by decide)

/-- Claim C2: the overall verdict is `DOWN` when `down_count > 0`, else
`DEGRADED` when `unk_count > 0`, else `OK`; in particular one down service
forces `DOWN` no matter how many services are unknown. -/
theorem overall_verdict_rule (services : List Service)
    (components : List (String × PyComp)) :
    (overall (statusesOf services components) =
      if 0 < down_count (statusesOf services components) then "DOWN"
      else if 0 < unk_count (statusesOf services components) then "DEGRADED"
      else "OK") ∧
    (0 < down_count (statusesOf services components) →
      overall (statusesOf services components) = "DOWN") := by
  constructor
  · unfold overall
    split_ifs <;> first | rfl | omega
  · intro h
    unfold overall
    split_ifs <;> first | rfl | omega

/-- Witness for C2, matching the spec's example `{a: up, b: down,
c: unknown}`: one down service dominates an unknown one. -/
theorem overall_verdict_rule_witness :
    overall (statusesOf [⟨"a"⟩, ⟨"b"⟩, ⟨"c"⟩]
      [("a", .pydict [("status", .pystr "up")]),
       ("b", .pydict [("status", .pystr "down")])]) = "DOWN" :=
  (overall_verdict_rule [⟨"a"⟩, ⟨"b"⟩, ⟨"c"⟩]
      [("a", .pydict [("status", .pystr "up")]),
       ("b", .pydict [("status", .pystr "down")])]).2 (by decide)

/-- Claim C10: the three counters partition the configured services —
`up_count + down_count + unk_count` equals the number of service
descriptors, because every status that is not (case-insensitively) `up`
or `down` is counted as unknown; e.g. `degraded` and `starting` both
count as unknown. -/
theorem status_count_partition (services : List Service)
    (components : List (String × PyComp)) :
    (up_count (statusesOf services components) +
      down_count (statusesOf services components) +
      unk_count (statusesOf services components) = services.length) ∧
    unk_count [StatusVal.pystr "degraded", StatusVal.pystr "starting"] = 2 := by
  constructor
  · have hle := countP_disjoint_le isDown isUp (statusesOf services components)
      isDown_isUp_disjoint
    have hlen : (statusesOf services components).length = services.length := by
      simp [statusesOf]
    unfold unk_count down_count up_count at *
    omega
  · decide

/-- Claim C7: the aggregator's per-service status lookup is total —
a key missing from the component mapping, a `null` component, and a
component without a `status` field all classify as unknown (no exception
is possible: the embedded lookup is a total function); an unset
(`null`) status is neither up nor down; and the up/down classification
compares the lower-cased status string against `"up"`/`"down"`. -/
theorem compStatus_unknown_cases :
    (∀ components key, alookup components key = none →
        compStatus components key = .pystr "unknown") ∧
    (∀ components key, alookup components key = some PyComp.pynull →
        compStatus components key = .pystr "unknown") ∧
    (∀ components key kvs, alookup components key = some (.pydict kvs) →
        alookup kvs "status" = none →
        compStatus components key = .pystr "unknown") ∧
    (∀ components key kvs, alookup components key = some (.pydict kvs) →
        alookup kvs "status" = some .pynone →
        compStatus components key = .pynone) ∧
    (isUp .pynone = false ∧ isDown .pynone = false) ∧
    (∀ s, (isUp (.pystr s) = true ↔ lowerString s = "up") ∧
          (isDown (.pystr s) = true ↔ lowerString s = "down")) := by
  refine ⟨?_, ?_, ?_, ?_, ⟨rfl, rfl⟩, ?_⟩
  · intro comps key h
    unfold compStatus
    rw [h]
  · intro comps key h
    unfold compStatus
    rw [h]
  · intro comps key kvs hl hs
    unfold compStatus
    rw [hl]
    cases kvs with
    | nil => rfl
    | cons f fs => simp [hs]
  · intro comps key kvs hl hs
    unfold compStatus
    rw [hl]
    cases kvs with
    | nil => exact absurd hs (by simp [alookup])
    | cons f fs => simp [hs]
  · intro s
    constructor <;> simp [isUp, isDown, pyOrEmpty]

/-- Witness for C7: a missing key, a `null` component and a component
whose dict has no `status` field, plus one case-insensitive match. -/
theorem compStatus_unknown_cases_witness :
    compStatus [("b", PyComp.pynull)] "a" = .pystr "unknown" ∧
    compStatus [("a", PyComp.pynull)] "a" = .pystr "unknown" ∧
    compStatus [("a", PyComp.pydict [("lastError", .pystr "x")])] "a" =
      .pystr "unknown" ∧
    isUp (.pystr "Up") = true :=
  ⟨compStatus_unknown_cases.1 [("b", PyComp.pynull)] "a" rfl,
   compStatus_unknown_cases.2.1 [("a", PyComp.pynull)] "a" rfl,
   compStatus_unknown_cases.2.2.1 [("a", PyComp.pydict [("lastError", .pystr "x")])]
     "a" [("lastError", .pystr "x")] rfl rfl,
   ((compStatus_unknown_cases.2.2.2.2.2 "Up").1).mpr (by decide)⟩

/-! ## Claim theorems: memory join and CPU normalization -/

theorem alookup_eq_none_iff {α β : Type} [DecidableEq α]
    (l : List (α × β)) (k : α) :
    alookup l k = none ↔ k ∉ l.map Prod.fst := by
  induction l with
  | nil => simp [alookup]
  | cons kv rest ih =>
      obtain ⟨k', v⟩ := kv
      by_cases h : k' = k
      · subst h
        simp [alookup]
      · simp [alookup, h, ih, Ne.symm h]

theorem matchRows_of_not_mem (t : Int) (a : ℚ) (right : Series)
    (h : alookup right t = none) : matchRows t a right = [] := by
  induction right with
  | nil => rfl
  | cons rb rest ih =>
      obtain ⟨t', b⟩ := rb
      unfold matchRows
      by_cases ht : t' = t
      · exfalso
        rw [ht] at h
        simp [alookup] at h
      · rw [if_neg ht]
        apply ih
        simpa [alookup, ht] using h

theorem matchRows_eq_lookup (t : Int) (a : ℚ) (right : Series)
    (h : (right.map Prod.fst).Nodup) :
    matchRows t a right =
      match alookup right t with
      | none => []
      | some b => [(t, a, b)] := by
  induction right with
  | nil => rfl
  | cons rb rest ih =>
      obtain ⟨t', b⟩ := rb
      simp only [List.map_cons, List.nodup_cons] at h
      obtain ⟨hnotin, hnd⟩ := h
      unfold matchRows
      by_cases ht : t' = t
      · subst ht
        rw [if_pos rfl]
        rw [matchRows_of_not_mem t' a rest ((alookup_eq_none_iff rest t').mpr hnotin)]
        simp [alookup]
      · rw [if_neg ht, ih hnd]
        simp [alookup, ht]

theorem pdMergeInner_eq_filterMap (left right : Series)
    (h : (right.map Prod.fst).Nodup) :
    pdMergeInner left right =
      left.filterMap (fun la =>
        (alookup right la.1).map (fun b => (la.1, la.2, b))) := by
  induction left with
  | nil => rfl
  | cons la rest ih =>
      obtain ⟨t, a⟩ := la
      unfold pdMergeInner
      rw [matchRows_eq_lookup t a right h, ih]
      cases hl : alookup right t <;> simp [hl, List.filterMap_cons]

theorem filterMap_lookup_keys (avail total : Series) :
    (avail.filterMap (fun la => (alookup total la.1).map
        (fun b => (la.1, (1 - la.2 / b) * 100)))).map Prod.fst =
      (avail.map Prod.fst).filter (fun t => (alookup total t).isSome) := by
  induction avail with
  | nil => rfl
  | cons la rest ih =>
      obtain ⟨t, a⟩ := la
      cases hl : alookup total t <;>
        simp [List.filterMap_cons, List.filter_cons, hl, ih]

/-- Claim C3: `mem_used_pct`'s series combinator returns the empty series
when either input is empty; otherwise it inner-joins on exact timestamp
equality — each surviving row carries `(1 - available/total) * 100`, rows
whose timestamp appears in only one series are dropped — and the output
keys are the left (available) keys restricted to matching ones, hence
still strictly ascending when the input is. -/
theorem mem_used_pct_series_inner_join (avail total : Series)
    (hnodup : (total.map Prod.fst).Nodup)
    (hsorted : List.Pairwise (· < ·) (avail.map Prod.fst)) :
    (∀ t, mem_used_pct_series [] t = []) ∧
    (∀ a, mem_used_pct_series a [] = []) ∧
    (avail ≠ [] → total ≠ [] →
      mem_used_pct_series avail total =
        avail.filterMap (fun la => (alookup total la.1).map
          (fun b => (la.1, (1 - la.2 / b) * 100))) ∧
      (mem_used_pct_series avail total).map Prod.fst =
        (avail.map Prod.fst).filter (fun t => (alookup total t).isSome) ∧
      List.Pairwise (· < ·) ((mem_used_pct_series avail total).map Prod.fst)) := by
  refine ⟨fun t => by simp [mem_used_pct_series], fun a => by simp [mem_used_pct_series], ?_⟩
  intro h1 h2
  have hform : mem_used_pct_series avail total =
      avail.filterMap (fun la => (alookup total la.1).map
        (fun b => (la.1, (1 - la.2 / b) * 100))) := by
    unfold mem_used_pct_series
    rw [if_neg (by simp [h1, h2])]
    rw [pdMergeInner_eq_filterMap avail total hnodup, List.map_filterMap]
    simp only [Option.map_map]
    rfl
  have hkeys : (mem_used_pct_series avail total).map Prod.fst =
      (avail.map Prod.fst).filter (fun t => (alookup total t).isSome) := by
    rw [hform, filterMap_lookup_keys]
  refine ⟨hform, hkeys, ?_⟩
  rw [hkeys]
  exact List.Pairwise.sublist (List.filter_sublist _) hsorted

/-- Witness for C3, matching the spec's example: `available = 30`,
`total = 100` at the overlapping timestamp `1` gives `70.0`; timestamps
`2` (left only) and `3` (right only) are dropped. -/
theorem mem_used_pct_series_inner_join_witness :
    mem_used_pct_series [(1, 30), (2, 50)] [(1, 100), (3, 100)] = [(1, 70)] := by
  have h := (mem_used_pct_series_inner_join [(1, 30), (2, 50)] [(1, 100), (3, 100)]
    (by decide) (by decide)).2.2 (by decide) (by decide)
  rw [h.1]
  norm_num [alookup, List.filterMap_cons]

theorem seriesMax_map_mul100 (vs : List ℚ) :
    seriesMax (vs.map (fun v => v * 100)) =
      (seriesMax vs).map (fun m => m * 100) := by
  induction vs with
  | nil => rfl
  | cons v rest ih =>
      simp only [List.map_cons, seriesMax, ih]
      cases hm : seriesMax rest <;>
        simp [max_mul_of_nonneg _ _ (by norm_num : (0 : ℚ) ≤ 100)]

/-- Claim C6: on a nonempty fetched CPU series, when the window maximum is
≤ 1.5 every value is multiplied by 100 before display (so the maximum
scales by 100 as well); when the maximum exceeds 1.5 the series is
unchanged. -/
theorem cpu_normalization (vs : List ℚ) (m : ℚ)
    (hne : vs ≠ []) (hmax : seriesMax vs = some m) :
    (m ≤ 3 / 2 →
      cpu_plot_values vs = vs.map (fun v => v * 100) ∧
      seriesMax (cpu_plot_values vs) = some (m * 100)) ∧
    (3 / 2 < m → cpu_plot_values vs = vs) := by
  constructor
  · intro hle
    have heq : cpu_plot_values vs = vs.map (fun v => v * 100) := by
      unfold cpu_plot_values
      rw [hmax]
      simp [hle]
    refine ⟨heq, ?_⟩
    rw [heq, seriesMax_map_mul100, hmax]
    rfl
  · intro hgt
    unfold cpu_plot_values
    rw [hmax]
    simp [not_le.mpr hgt]

/-- Witness for C6, matching the spec's examples: a fractional series with
maximum `0.87` is scaled to maximum `87.0`; a series with maximum `55` is
left unchanged. -/
theorem cpu_normalization_witness :
    cpu_plot_values [87 / 100, 1 / 2] = [87, 50] ∧
    seriesMax (cpu_plot_values [87 / 100, 1 / 2]) = some 87 ∧
    cpu_plot_values [55, 10] = [55, 10] := by
  have hm1 : seriesMax [87 / 100, 1 / 2] = some (87 / 100) := by
    show some (max (87 / 100) (1 / 2)) = some (87 / 100)
    rw [max_eq_left (by norm_num)]
  have h1 := (cpu_normalization [87 / 100, 1 / 2] (87 / 100)
    (by simp) hm1).1 (by norm_num)
  have hm2 : seriesMax [55, 10] = some 55 := by
    show some (max 55 10) = some 55
    rw [max_eq_left (by norm_num)]
  have h2 := (cpu_normalization [55, 10] 55 (by simp) hm2).2 (by norm_num)
  refine ⟨?_, ?_, h2⟩
  · rw [h1.1]
    norm_num
  · rw [h1.2]
    norm_num

/-! ## Claim theorems: TTL cache -/

theorem cachedCall_hit {α β : Type} [DecidableEq α] (ttl : Nat)
    (f : Nat → α → β) (c : CacheState α β) (now : Nat) (a : α)
    (v : β) (fetchedAt : Nat)
    (hl : alookup c.entries a = some (v, fetchedAt))
    (hv : now - fetchedAt < ttl) :
    cachedCall ttl f c now a = (v, c, 0) := by
  unfold cachedCall
  rw [hl]
  simp [hv]

theorem cachedCall_expired {α β : Type} [DecidableEq α] (ttl : Nat)
    (f : Nat → α → β) (c : CacheState α β) (now : Nat) (a : α)
    (v : β) (fetchedAt : Nat)
    (hl : alookup c.entries a = some (v, fetchedAt))
    (hv : ¬ now - fetchedAt < ttl) :
    cachedCall ttl f c now a = (f now a, ⟨(a, f now a, now) :: c.entries⟩, 1) := by
  unfold cachedCall
  rw [hl]
  simp [hv]

theorem cachedCall_fresh {α β : Type} [DecidableEq α] (ttl : Nat)
    (f : Nat → α → β) (c : CacheState α β) (now : Nat) (a : α)
    (hl : alookup c.entries a = none) :
    cachedCall ttl f c now a = (f now a, ⟨(a, f now a, now) :: c.entries⟩, 1) := by
  unfold cachedCall
  rw [hl]

/-- Claim C9: through the modelled TTL cache, a first call on a fresh
argument performs exactly one network fetch; a second identical call
within the TTL window (age measured from the first call) performs none
and returns the value stored by the first call; once the TTL has elapsed the next
identical call performs a new network fetch at the current time. The
configured TTLs are 10 s for agent status/log reads and 30 s for metric
reads. -/
theorem cachedCall_ttl {α β : Type} [DecidableEq α] (ttl : Nat)
    (f : Nat → α → β) (c : CacheState α β) (a : α) (t₁ t₂ : Nat)
    (hfresh : alookup c.entries a = none) :
    ((cachedCall ttl f c t₁ a).2.2 = 1 ∧
      (cachedCall ttl f c t₁ a).1 = f t₁ a) ∧
    (t₂ - t₁ < ttl →
      (cachedCall ttl f (cachedCall ttl f c t₁ a).2.1 t₂ a).1 = f t₁ a ∧
      (cachedCall ttl f (cachedCall ttl f c t₁ a).2.1 t₂ a).2.2 = 0) ∧
    (t₁ + ttl ≤ t₂ →
      (cachedCall ttl f (cachedCall ttl f c t₁ a).2.1 t₂ a).2.2 = 1 ∧
      (cachedCall ttl f (cachedCall ttl f c t₁ a).2.1 t₂ a).1 = f t₂ a) ∧
    (OPS_GET_TTL = 10 ∧ DO_METRIC_TTL = 30) := by
  have hfirst := cachedCall_fresh ttl f c t₁ a hfresh
  have hlook : alookup (cachedCall ttl f c t₁ a).2.1.entries a = some (f t₁ a, t₁) := by
    rw [hfirst]
    simp [alookup]
  refine ⟨by rw [hfirst]; exact ⟨rfl, rfl⟩, ?_, ?_, rfl, rfl⟩
  · intro hin
    rw [cachedCall_hit ttl f _ t₂ a (f t₁ a) t₁ hlook hin]
    exact ⟨rfl, rfl⟩
  · intro hafter
    rw [cachedCall_expired ttl f _ t₂ a (f t₁ a) t₁ hlook (by omega)]
    exact ⟨rfl, rfl⟩

/-- Witness for C9 with TTL 10: a fresh call at `t = 0` fetches, a repeat
at `t = 3` is served from cache, a repeat at `t = 10` fetches again. -/
theorem cachedCall_ttl_witness :
    (cachedCall 10 (fun (now x : Nat) => now + x) ⟨[]⟩ 0 5).2.2 = 1 ∧
    (cachedCall 10 (fun (now x : Nat) => now + x)
      (cachedCall 10 (fun (now x : Nat) => now + x) ⟨[]⟩ 0 5).2.1 3 5).2.2 = 0 ∧
    (cachedCall 10 (fun (now x : Nat) => now + x)
      (cachedCall 10 (fun (now x : Nat) => now + x) ⟨[]⟩ 0 5).2.1 3 5).1 = 5 ∧
    (cachedCall 10 (fun (now x : Nat) => now + x)
      (cachedCall 10 (fun (now x : Nat) => now + x) ⟨[]⟩ 0 5).2.1 10 5).2.2 = 1 := by
  have h3 := cachedCall_ttl 10 (fun (now x : Nat) => now + x) ⟨[]⟩ 5 0 3 rfl
  have h10 := cachedCall_ttl 10 (fun (now x : Nat) => now + x) ⟨[]⟩ 5 0 10 rfl
  exact ⟨h3.1.1, (h3.2.1 (by omega)).2, (h3.2.1 (by omega)).1, (h10.2.2.1 (by omega)).1⟩
